import Mathlib

/-!
Shallow embedding of the prospector version-resolution engine
(src/index.ts) and proofs about it.

The embedding models the pure decision logic of `calculateVersion`,
`analyzeCommitBumps`, `getCommitsWithBumps`, `suggestVersionBump` and the
branch-name sanitization.  Git itself is the external collaborator: its
answers (current branch, resolved baseline tag, the newest-first commit
range between baseline and HEAD) are the fields of `RepoState`.  The
`git log --grep` pre-filter of the optimized scan is modelled by the
predicate `grepMatch`, whose semantics were established by running the
exact command line built at src/index.ts:395-404 against git: under
`-E` (POSIX extended regex) the escaped pipes `\|` denote literal `|`
characters, so the whole pattern matches only the literal text
"[major]|[minor]|[patch]|[version:|[v:" (case-insensitively).
A second empirically established fact of the fetch stage: both commit
fetchers split the `--format=%H%x00%B%x00` output on `'\x00\x00'`, a
byte pair that never occurs in that output (records are separated by
`NUL LF`), so the whole output is one block and only the first
hash/message pair survives the destructuring — the scan delivers at
most the newest fetched commit (`parseLog`).
-/

namespace Prospector

/-- A parsed three-component semantic version (node-semver `SemVer`
restricted to the plain `major.minor.patch` shape used by the engine;
tag versions and computed versions never carry prerelease or build
metadata on the paths modelled here). -/
structure SemVer where
  major : Nat
  minor : Nat
  patch : Nat
deriving Repr, DecidableEq

/-- node-semver `format()` for a plain version. -/
def SemVer.format (v : SemVer) : String :=
  toString v.major ++ "." ++ toString v.minor ++ "." ++ toString v.patch

/-- src/index.ts `CommitInfo`. -/
structure CommitInfo where
  hash    : String
  message : String
deriving Repr, DecidableEq

/-- src/index.ts `VersionTag` (the `version` field is the parsed semver
of the tag name with the prefix stripped). -/
structure VersionTag where
  tag     : String
  version : SemVer
  commit  : String
deriving Repr, DecidableEq

/-- The `commitBumps` record built by `analyzeCommitBumps`. -/
structure BumpTally where
  major           : Nat
  minor           : Nat
  patch           : Nat
  explicitVersion : Option String
deriving Repr, DecidableEq

/-- src/index.ts `VersionInfo`. -/
structure VersionInfo where
  version         : String
  branch          : String
  isMainBranch    : Bool
  commitsSinceTag : Nat
  lastTag         : Option VersionTag
  currentCommit   : String
  commitBumps     : BumpTally
deriving Repr, DecidableEq

/-- The per-category bump patterns.  In the source these are `RegExp`
values used only through `.test(message)`, so each is modelled as a
Boolean predicate on the message.  (`calculateVersion` always supplies
all three fields, filling absent ones with the defaults, so the
optional chaining `patterns.major?.test` of `analyzeCommitBumps` always
sees a pattern.) -/
structure BumpPatterns where
  major : String → Bool
  minor : String → Bool
  patch : String → Bool

/-- Case-insensitive match of the pattern characters against the front
of the text; returns the rest of the text on success.  This is the
building block for the (case-insensitive, backtracking-free fragments
of the) regexes of the source. -/
def ciDrop : List Char → List Char → Option (List Char)
  | [], cs => some cs
  | _ :: _, [] => none
  | p :: ps, c :: cs => if p.toLower = c.toLower then ciDrop ps cs else none

/-- Case-insensitive substring test on character lists. -/
def ciContains (pat : List Char) : List Char → Bool
  | [] => (ciDrop pat []).isSome
  | c :: rest => (ciDrop pat (c :: rest)).isSome || ciContains pat rest

/-- `new RegExp(pat, 'i').test(s)` for a pattern with no metacharacters:
case-insensitive substring search. -/
def containsCI (pat s : String) : Bool :=
  ciContains pat.data s.data

/-- `DEFAULT_BUMP_PATTERNS` (src/index.ts:72-76): `/\[major\]/i`,
`/\[minor\]/i`, `/\[patch\]/i` are case-insensitive substring tests for
the bracketed markers. -/
def defaultPatterns : BumpPatterns :=
  { major := fun msg => containsCI "[major]" msg
  , minor := fun msg => containsCI "[minor]" msg
  , patch := fun msg => containsCI "[patch]" msg }

/-- The tail `(\d+\.\d+\.\d+)\]` of `VERSION_SET_PATTERN` matched at the
current position: a maximal nonempty digit run, a dot, a second run, a
dot, a third run, then a closing bracket.  Returns the captured group
(the digits-and-dots text).  Maximal-run matching is exactly the greedy
`\d+` here, because each `\d+` is followed by a non-digit literal, so
regex backtracking can never succeed with a shorter run. -/
def parseTriple (cs : List Char) : Option (List Char) :=
  let d1 := cs.takeWhile Char.isDigit
  let r1 := cs.dropWhile Char.isDigit
  if d1.isEmpty then none else
  match r1 with
  | '.' :: r2 =>
    let d2 := r2.takeWhile Char.isDigit
    let r3 := r2.dropWhile Char.isDigit
    if d2.isEmpty then none else
    match r3 with
    | '.' :: r4 =>
      let d3 := r4.takeWhile Char.isDigit
      let r5 := r4.dropWhile Char.isDigit
      if d3.isEmpty then none else
      match r5 with
      | ']' :: _ => some (d1 ++ '.' :: d2 ++ '.' :: d3)
      | _ => none
    | _ => none
  | _ => none

/-- One attempt of `VERSION_SET_PATTERN = /\[(?:version|v):(\d+\.\d+\.\d+)\]/i`
anchored at the current position: a bracket, then the alternation
(`version` preferred over `v`), a colon, and the version triple. -/
def matchExplicitAt (cs : List Char) : Option (List Char) :=
  match cs with
  | '[' :: rest =>
    (match ciDrop "version:".data rest with
     | some r => parseTriple r
     | none =>
       match ciDrop "v:".data rest with
       | some r => parseTriple r
       | none => none)
  | _ => none

/-- Leftmost-match search of `VERSION_SET_PATTERN` over the message. -/
def findExplicitAux : List Char → Option (List Char)
  | [] => none
  | c :: rest =>
    match matchExplicitAt (c :: rest) with
    | some v => some v
    | none => findExplicitAux rest

/-- `VERSION_SET_PATTERN.exec(message)?.[1]` (src/index.ts:82 and 462):
the captured `major.minor.patch` text of the leftmost match, if any. -/
def findExplicit (s : String) : Option String :=
  (findExplicitAux s.data).map fun l => String.mk l

/-- The pre-filter applied by the optimized scan
(`getCommitsWithBumps`, src/index.ts:395-404).  The command is
`git log <range> --grep='\[major\]\|\[minor\]\|\[patch\]\|\[version:\|\[v:' -E -i`.
Under `-E` the escaped pipe `\|` is a literal `|` (verified against
git), so the pattern is the single literal string below and a commit
passes the filter iff its message contains that literal,
case-insensitively. -/
def grepMatch (msg : String) : Bool :=
  containsCI "[major]|[minor]|[patch]|[version:|[v:" msg

/-! ### Branch-name sanitization (src/index.ts:618-620 and 664-666) -/

/-- The character class `[a-zA-Z0-9-]` of the sanitization regex. -/
def isAllowedChar (c : Char) : Bool :=
  c.isAlpha || c.isDigit || c == '-'

/-- `.replace(/[^a-zA-Z0-9-]/g, '-')` applied to one character. -/
def replChar (c : Char) : Char :=
  if isAllowedChar c then c else '-'

/-- The dash predicate of `.replace(/^-+|-+$/g, '')`. -/
def isDashChar (c : Char) : Bool := c == '-'

/-- Strip the leading run of dashes (the `^-+` alternative). -/
def stripLead (l : List Char) : List Char := l.dropWhile isDashChar

/-- Strip the trailing run of dashes (the `-+$` alternative). -/
def stripTrail (l : List Char) : List Char :=
  (l.reverse.dropWhile isDashChar).reverse

/-- `branch.replace(/[^a-zA-Z0-9-]/g, '-').replace(/^-+|-+$/g, '')`. -/
def sanitizeBranch (s : String) : String :=
  String.mk (stripTrail (stripLead (s.data.map replChar)))

/-! ### Bump aggregation (`analyzeCommitBumps`, src/index.ts:454-483) -/

/-- The initial `bumps` record (also the value `commitBumps` keeps when
bump analysis is skipped, src/index.ts:458 and 525). -/
def zeroTally : BumpTally := ⟨0, 0, 0, none⟩

/-- The loop of `analyzeCommitBumps`: iterate the newest-first commits,
check the explicit-version pattern first (setting `explicitVersion` and
breaking on a match), otherwise count the first matching bump pattern
in the priority order major, minor, patch. -/
def analyzeGo (pats : BumpPatterns) : List CommitInfo → BumpTally → BumpTally
  | [], acc => acc
  | c :: rest, acc =>
    match findExplicit c.message with
    | some v => { acc with explicitVersion := some v }
    | none =>
      if pats.major c.message then
        analyzeGo pats rest { acc with major := acc.major + 1 }
      else if pats.minor c.message then
        analyzeGo pats rest { acc with minor := acc.minor + 1 }
      else if pats.patch c.message then
        analyzeGo pats rest { acc with patch := acc.patch + 1 }
      else
        analyzeGo pats rest acc

/-- `analyzeCommitBumps(commits, patterns)`. -/
def analyzeCommitBumps (commits : List CommitInfo) (pats : BumpPatterns) : BumpTally :=
  analyzeGo pats commits zeroTally

/-! ### The engine state and configuration -/

/-- The answers of the git collaborator needed by `calculateVersion`,
gathered per invocation:
`currentBranch`/`currentCommit` are the `rev-parse` results;
`lastTag` is the baseline produced by `getVersionTags` +
`getLastVersionTag` (the highest reachable version tag, or none);
`commitsInRange` is the newest-first commit list of the range
`lastTag.commit..currentCommit` (the whole history when there is no
baseline) — `rev-list --count` of that range is its length, and the
`git log` fetches of `getCommitMessages` / `getCommitsWithBumps` are
its list prefix / its `--grep` filtering. -/
structure RepoState where
  currentBranch  : String
  currentCommit  : String
  lastTag        : Option VersionTag
  commitsInRange : List CommitInfo
deriving Repr

/-- The normalized options of `calculateVersion`
(src/index.ts:490-502): `mainBranches` is the normalized array,
`enableCommitBumps` defaults to true, `maxCommitScan` is the optional
legacy scan limit (its presence selects the legacy exhaustive strategy,
its absence the optimized targeted strategy), `patterns` the bump
patterns with defaults filled in. -/
structure Config where
  mainBranches      : List String
  enableCommitBumps : Bool
  maxCommitScan     : Option Nat
  patterns          : BumpPatterns

/-- The result-parsing stage shared by `getCommitMessages`
(src/index.ts:369-378) and `getCommitsWithBumps` (src/index.ts:412-443).
The raw `git log --format=%H%x00%B%x00` output is split on `'\x00\x00'`
— a byte pair that never occurs, because consecutive records are laid
out as `hash NUL body NUL LF hash NUL ...` (verified against git) — so
the whole output is one block, and the destructuring
`const [hash, message] = block.split('\x00')` keeps only the first
hash/message pair.  At most the newest fetched commit therefore
survives parsing. -/
def parseLog (fetched : List CommitInfo) : List CommitInfo := fetched.take 1

/-- The commit list that reaches bump analysis (src/index.ts:528-546):
nothing unless bumps are enabled on a trunk branch; with a scan limit
`n > 0` the first `n` commits of the range are fetched
(`getCommitMessages` with `-n`), with limit `0` the whole range (a
falsy limit emits no `-n` flag); without a limit the grep-filtered
range (`getCommitsWithBumps`).  Either way the broken `parseLog` stage
then keeps at most the newest fetched commit. -/
def scannedCommits (repo : RepoState) (cfg : Config) (isMain : Bool) : List CommitInfo :=
  if cfg.enableCommitBumps && isMain then
    match cfg.maxCommitScan with
    | some n => parseLog (if 0 < n then repo.commitsInRange.take n else repo.commitsInRange)
    | none => parseLog (repo.commitsInRange.filter fun c => grepMatch c.message)
  else []

/-- `commitsSinceTag` (src/index.ts:561-577 and 624-642; both arms
compute the same expression, with `countCommits` respectively
`countAllCommits` as the authoritative count, and both counts are the
length of the modelled range). -/
def resolveCount (repo : RepoState) (cfg : Config) (commits : List CommitInfo) : Nat :=
  match cfg.maxCommitScan with
  | none => repo.commitsInRange.length
  | some n =>
    if commits.length = 0 then repo.commitsInRange.length
    else if n = 0 ∨ commits.length < n then commits.length
    else repo.commitsInRange.length

/-- Version composition when a baseline tag exists
(src/index.ts:581-622). -/
def versionWithTag (tagV : SemVer) (isMain : Bool) (enable : Bool)
    (bumps : BumpTally) (count : Nat) (branch : String) : String :=
  if isMain then
    if enable ∧ bumps.explicitVersion.isSome then
      bumps.explicitVersion.getD ""
    else if enable ∧ (0 < bumps.major ∨ 0 < bumps.minor) then
      let major := tagV.major + bumps.major
      let minor := tagV.minor + bumps.minor
      let mp : Nat × Nat :=
        if 0 < bumps.major then (0, 0)
        else if 0 < bumps.minor then (minor, 0)
        else (minor, tagV.patch)
      SemVer.format ⟨major, mp.1, mp.2 + bumps.patch⟩
    else
      SemVer.format ⟨tagV.major, tagV.minor, tagV.patch + count⟩
  else
    SemVer.format ⟨tagV.major, tagV.minor, tagV.patch + 1⟩
      ++ "-" ++ sanitizeBranch branch ++ "." ++ toString count

/-- Version composition when no baseline tag exists
(src/index.ts:644-668).  Note that unlike the tagged path, the
major/minor branch copies all three tally fields verbatim — it resets
nothing. -/
def versionNoTag (isMain : Bool) (enable : Bool)
    (bumps : BumpTally) (count : Nat) (branch : String) : String :=
  if isMain then
    if enable ∧ bumps.explicitVersion.isSome then
      bumps.explicitVersion.getD ""
    else if enable ∧ (0 < bumps.major ∨ 0 < bumps.minor) then
      SemVer.format ⟨bumps.major, bumps.minor, bumps.patch⟩
    else
      "0.0." ++ toString count
  else
    "0.0.1-" ++ sanitizeBranch branch ++ "." ++ toString count

/-- `calculateVersion` (src/index.ts:489-682) over the modelled
repository answers. -/
def calcVersion (repo : RepoState) (cfg : Config) : VersionInfo :=
  let isMain := cfg.mainBranches.contains repo.currentBranch
  let commits := scannedCommits repo cfg isMain
  let bumps :=
    if cfg.enableCommitBumps && isMain then
      analyzeCommitBumps commits cfg.patterns
    else zeroTally
  let count := resolveCount repo cfg commits
  let version :=
    match repo.lastTag with
    | some t => versionWithTag t.version isMain cfg.enableCommitBumps bumps count repo.currentBranch
    | none => versionNoTag isMain cfg.enableCommitBumps bumps count repo.currentBranch
  { version := version
  , branch := repo.currentBranch
  , isMainBranch := isMain
  , commitsSinceTag := count
  , lastTag := repo.lastTag
  , currentCommit := repo.currentCommit
  , commitBumps := bumps }

/-- node-semver `inc` on a plain `major.minor.patch` base version (tag
versions carry no prerelease part on the modelled paths), returning the
resulting version string or `null`.  The recognized release kinds of
`SemVer.inc` are major, minor, patch, premajor, preminor, prepatch,
prerelease and pre; on a base without prerelease identifiers and with
no identifier argument, the pre-kinds append `-0` (prerelease acts as
prepatch + pre).  Every other kind yields `null`: an unrecognized kind
throws `invalid increment argument`, and `release` (present in newer
node-semver) throws `version is not a prerelease` for a plain base —
either throw is caught by the `inc` wrapper, which returns `null`. -/
def semverInc (v : SemVer) (release : String) : Option String :=
  if release == "major" then some (SemVer.format ⟨v.major + 1, 0, 0⟩)
  else if release == "minor" then some (SemVer.format ⟨v.major, v.minor + 1, 0⟩)
  else if release == "patch" then some (SemVer.format ⟨v.major, v.minor, v.patch + 1⟩)
  else if release == "premajor" then some (SemVer.format ⟨v.major + 1, 0, 0⟩ ++ "-0")
  else if release == "preminor" then some (SemVer.format ⟨v.major, v.minor + 1, 0⟩ ++ "-0")
  else if release == "prepatch" then some (SemVer.format ⟨v.major, v.minor, v.patch + 1⟩ ++ "-0")
  else if release == "prerelease" then some (SemVer.format ⟨v.major, v.minor, v.patch + 1⟩ ++ "-0")
  else if release == "pre" then some (SemVer.format v ++ "-0")
  else none

/-- `suggestVersionBump` (src/index.ts:687-699): compute the version
info, take the baseline tag version (or `0.0.0`), apply `semver.inc`,
and fall back to `'1.0.0'` when `inc` returns `null`. -/
def suggestVersionBump (bumpType : String) (repo : RepoState) (cfg : Config) : String :=
  let info := calcVersion repo cfg
  let currentBase : SemVer :=
    match info.lastTag with
    | some t => t.version
    | none => ⟨0, 0, 0⟩
  match semverInc currentBase bumpType with
  | some v => v
  | none => "1.0.0"

/-! ### The progress channel

`calculateVersion` takes an optional `onProgress: (message: string) => void`
callback and invokes it with status strings at fixed points of the control
flow; its return value is never consumed.  The callback is modelled as a
state transformer `String → σ → σ` over an arbitrary caller state `σ`,
threaded through the same control flow.  (The `setInterval` ticker of
`countCommits` emits a wall-clock-dependent number of extra messages;
real time is outside the model, and those ticks carry no data back into
the computation either.  Message texts are abbreviated where the source
interpolates locale-formatted numbers.) -/

/-- `getCommitsWithBumps` (src/index.ts:386-448) with its progress
emissions: one search message, then either the no-match message or the
parse-loop messages.  The parse loop iterates the `'\x00\x00'`-split
blocks — a single block whenever the grep matched anything — so one
chunk message is emitted, and the parsed list is `parseLog` of the
grep-filtered range. -/
def scanTargetedT {σ : Type} (repo : RepoState) (cb : String → σ → σ) (s : σ) :
    List CommitInfo × σ :=
  let s := cb "Searching for version bump markers..." s
  let matched := repo.commitsInRange.filter fun c => grepMatch c.message
  if matched.isEmpty then
    (parseLog matched, cb "Search complete - no bump markers found" s)
  else
    let s := cb "Found commits with bump markers, parsing..." s
    let s := cb "Parsed chunk 1 of 1" s
    (parseLog matched, cb "Parsing complete" s)

/-- `calculateVersion` with the progress callback threaded through, as
in src/index.ts:489-682: the same computation as `calcVersion`, with
the callback invocations of the source interleaved at their positions
in the control flow. -/
def calcVersionT {σ : Type} (repo : RepoState) (cfg : Config)
    (cb : String → σ → σ) (s0 : σ) : VersionInfo × σ :=
  let s := cb "Getting current branch and commit..." s0
  let isMain := cfg.mainBranches.contains repo.currentBranch
  let s := cb ("Branch: " ++ repo.currentBranch ++ " | Commit: " ++ repo.currentCommit) s
  let s := cb "Fetching version tags..." s
  let s := cb "Version tag count reported" s
  let cs : List CommitInfo × σ :=
    if cfg.enableCommitBumps && isMain then
      match cfg.maxCommitScan with
      | some n =>
        let s := cb "Scanning up to maxCommitScan commits for version bumps..." s
        (parseLog (if 0 < n then repo.commitsInRange.take n else repo.commitsInRange), s)
      | none =>
        let s := cb "Scanning for commits with version bumps (optimized)..." s
        let r := scanTargetedT repo cb s
        (r.1, cb "Found commit(s) with bump markers" r.2)
    else ([], s)
  let commits := cs.1
  let s := cs.2
  let bumps :=
    if cfg.enableCommitBumps && isMain then
      analyzeCommitBumps commits cfg.patterns
    else zeroTally
  let s :=
    if cfg.enableCommitBumps && isMain then
      match bumps.explicitVersion with
      | some v => cb ("Explicit version found: " ++ v) s
      | none =>
        if 0 < bumps.major ∨ 0 < bumps.minor ∨ 0 < bumps.patch then
          cb "Bumps detected" s
        else s
    else s
  let count := resolveCount repo cfg commits
  let s := cb ("Commits since baseline: " ++ toString count) s
  let version :=
    match repo.lastTag with
    | some t => versionWithTag t.version isMain cfg.enableCommitBumps bumps count repo.currentBranch
    | none => versionNoTag isMain cfg.enableCommitBumps bumps count repo.currentBranch
  let s := cb ("Calculated version: " ++ version) s
  ({ version := version
   , branch := repo.currentBranch
   , isMainBranch := isMain
   , commitsSinceTag := count
   , lastTag := repo.lastTag
   , currentCommit := repo.currentCommit
   , commitBumps := bumps }, s)

/-! ### The aggregation policy as the specification states it

These definitions follow the specification text (§3 BumpTally invariant,
§4.3 BumpClassifier, §4.4 BumpAggregator), to be compared with
`analyzeCommitBumps`: per commit, at most one of the three counters
increments, chosen by first-match priority; the scan stops at the first
(newest-first) commit bearing an explicit-version marker. -/

/-- The bump intent of a single commit message: the first matching
pattern in the priority order major, minor, patch (explicit markers are
tested separately, before these). -/
inductive BumpClass where
  | major
  | minor
  | patch
deriving Repr, DecidableEq

/-- §4.3: first-match classification in fixed priority order. -/
def classifyBump (pats : BumpPatterns) (msg : String) : Option BumpClass :=
  if pats.major msg then some BumpClass.major
  else if pats.minor msg then some BumpClass.minor
  else if pats.patch msg then some BumpClass.patch
  else none

/-- The number of commits in the list whose message classifies as the
given bump kind. -/
def countClassified (pats : BumpPatterns) (k : BumpClass) : List CommitInfo → Nat
  | [] => 0
  | c :: rest =>
    (if classifyBump pats c.message = some k then 1 else 0) + countClassified pats k rest

/-- A commit whose message bears no explicit-version marker. -/
def noExplicitMarker (c : CommitInfo) : Bool := (findExplicit c.message).isNone

/-- §4.4: the tally of a newest-first commit sequence.  Only the
commits strictly newer than the first explicit-version commit are
classified and counted; the explicit version, if any, is the one of
that first (most recent) matching commit. -/
def aggregateSpec (pats : BumpPatterns) (commits : List CommitInfo) : BumpTally :=
  { major := countClassified pats BumpClass.major (commits.takeWhile noExplicitMarker)
  , minor := countClassified pats BumpClass.minor (commits.takeWhile noExplicitMarker)
  , patch := countClassified pats BumpClass.patch (commits.takeWhile noExplicitMarker)
  , explicitVersion :=
      match commits.dropWhile noExplicitMarker with
      | [] => none
      | c :: _ => findExplicit c.message }

/-- Characterization of the `analyzeCommitBumps` loop for an arbitrary
accumulator: the counters grow by the classified counts of the commits
before the first explicit-version commit, and the explicit version is
the one of that commit (the accumulator's, when none exists). -/
theorem analyzeGo_spec (pats : BumpPatterns) (commits : List CommitInfo) :
    ∀ acc : BumpTally,
      analyzeGo pats commits acc =
        { major := acc.major + countClassified pats BumpClass.major (commits.takeWhile noExplicitMarker)
        , minor := acc.minor + countClassified pats BumpClass.minor (commits.takeWhile noExplicitMarker)
        , patch := acc.patch + countClassified pats BumpClass.patch (commits.takeWhile noExplicitMarker)
        , explicitVersion :=
            match commits.dropWhile noExplicitMarker with
            | [] => acc.explicitVersion
            | c :: _ => findExplicit c.message } := by
  induction commits with
  | nil => intro acc; rfl
  | cons c rest ih =>
    intro acc
    cases hx : findExplicit c.message with
    | some v =>
      have hpred : noExplicitMarker c = false := by simp [noExplicitMarker, hx]
      simp [analyzeGo, hx, hpred, countClassified]
    | none =>
      have hpred : noExplicitMarker c = true := by simp [noExplicitMarker, hx]
      have hstep : analyzeGo pats (c :: rest) acc =
          (if pats.major c.message then analyzeGo pats rest { acc with major := acc.major + 1 }
           else if pats.minor c.message then analyzeGo pats rest { acc with minor := acc.minor + 1 }
           else if pats.patch c.message then analyzeGo pats rest { acc with patch := acc.patch + 1 }
           else analyzeGo pats rest acc) := by
        simp [analyzeGo, hx]
      rw [hstep, List.takeWhile_cons_of_pos hpred, List.dropWhile_cons_of_pos hpred]
      by_cases hM : pats.major c.message
      · rw [if_pos hM, ih]
        simp [countClassified, classifyBump, hM, BumpTally.mk.injEq]
        omega
      · by_cases hm : pats.minor c.message
        · rw [if_neg hM, if_pos hm, ih]
          simp [countClassified, classifyBump, hM, hm, BumpTally.mk.injEq]
          omega
        · by_cases hp : pats.patch c.message
          · rw [if_neg hM, if_neg hm, if_pos hp, ih]
            simp [countClassified, classifyBump, hM, hm, hp, BumpTally.mk.injEq]
            omega
          · rw [if_neg hM, if_neg hm, if_neg hp, ih]
            simp [countClassified, classifyBump, hM, hm, hp, BumpTally.mk.injEq]

/-- C2: for every newest-first commit sequence and every pattern
configuration, `analyzeCommitBumps` computes exactly the specified
aggregation: per commit at most one of the major/minor/patch counters
increments, chosen by first-match priority explicit, then major, minor,
patch; the scan stops at the first (newest) commit matching the
explicit-version pattern, so strictly older commits contribute nothing,
while the commits newer than the explicit one are counted. -/
theorem analyzeCommitBumps_eq_aggregateSpec (commits : List CommitInfo) (pats : BumpPatterns) :
    analyzeCommitBumps commits pats = aggregateSpec pats commits := by
  have h := analyzeGo_spec pats commits zeroTally
  simpa [analyzeCommitBumps, aggregateSpec, zeroTally] using h

/-! ### Sanitization properties (C7) -/


lemma isAllowedChar_replChar (c : Char) : isAllowedChar (replChar c) = true := by
  by_cases h : isAllowedChar c
  · simp [replChar, h]
  · simp [replChar, h]
    rfl

lemma all_of_sublist {p : Char → Bool} {l₁ l₂ : List Char}
    (h : l₁.Sublist l₂) (h2 : l₂.all p = true) : l₁.all p = true := by
  simp only [List.all_eq_true] at h2 ⊢
  exact fun x hx => h2 x (h.subset hx)

lemma stripLead_sublist (l : List Char) : (stripLead l).Sublist l :=
  List.dropWhile_sublist isDashChar

lemma stripTrail_sublist (l : List Char) : (stripTrail l).Sublist l := by
  have h := (List.dropWhile_sublist (l := l.reverse) isDashChar).reverse
  rwa [List.reverse_reverse] at h

lemma dropWhile_dash_id {l : List Char} (h : (l.head? == some '-') = false) :
    l.dropWhile isDashChar = l := by
  cases l with
  | nil => rfl
  | cons c rest =>
    have hc : ¬ isDashChar c = true := by
      simp only [List.head?_cons] at h
      simp [isDashChar]
      intro hcc
      rw [hcc] at h
      simp at h
    exact List.dropWhile_cons_of_neg hc

lemma head_dropWhile_dash (l : List Char) :
    ((l.dropWhile isDashChar).head? == some '-') = false := by
  induction l with
  | nil => rfl
  | cons c rest ih =>
    by_cases h : isDashChar c = true
    · rw [List.dropWhile_cons_of_pos h]
      exact ih
    · rw [List.dropWhile_cons_of_neg h]
      simp only [List.head?_cons]
      simp only [isDashChar] at h
      simpa using h

lemma head_stripLead (l : List Char) : ((stripLead l).head? == some '-') = false :=
  head_dropWhile_dash l

lemma last_stripTrail (l : List Char) : ((stripTrail l).getLast? == some '-') = false := by
  unfold stripTrail
  rw [List.getLast?_reverse]
  exact head_dropWhile_dash l.reverse

lemma stripTrail_append (l : List Char) :
    stripTrail l ++ (l.reverse.takeWhile isDashChar).reverse = l := by
  unfold stripTrail
  rw [← List.reverse_append, List.takeWhile_append_dropWhile, List.reverse_reverse]

lemma head_of_stripTrail {l : List Char} {c : Char}
    (h : (stripTrail l).head? = some c) : l.head? = some c := by
  cases hs : stripTrail l with
  | nil => rw [hs] at h; exact absurd h (by simp)
  | cons d ds =>
    rw [hs] at h
    simp only [List.head?_cons, Option.some.injEq] at h
    have hsplit := stripTrail_append l
    rw [hs] at hsplit
    rw [← hsplit]
    simp [h]

lemma head_stripTrail_stripLead (l : List Char) :
    ((stripTrail (stripLead l)).head? == some '-') = false := by
  cases hs : (stripTrail (stripLead l)).head? with
  | none => rfl
  | some c =>
    have := head_of_stripTrail hs
    have h2 := head_stripLead l
    rw [this] at h2
    simpa using h2

lemma map_replChar_id {l : List Char} (h : l.all isAllowedChar = true) :
    l.map replChar = l := by
  induction l with
  | nil => rfl
  | cons c rest ih =>
    simp only [List.all_cons, Bool.and_eq_true] at h
    simp [replChar, h.1, ih h.2]

/-- C7: branch-name sanitization is total and idempotent; its result
contains only characters from the class, and neither starts nor ends
with a dash. -/
theorem sanitizeBranch_idempotent_total (s : String) :
    sanitizeBranch (sanitizeBranch s) = sanitizeBranch s ∧
    (sanitizeBranch s).data.all isAllowedChar = true ∧
    ((sanitizeBranch s).data.head? == some '-') = false ∧
    ((sanitizeBranch s).data.getLast? == some '-') = false := by
  have hall : (sanitizeBranch s).data.all isAllowedChar = true := by
    show (stripTrail (stripLead (s.data.map replChar))).all isAllowedChar = true
    apply all_of_sublist (stripTrail_sublist _)
    apply all_of_sublist (stripLead_sublist _)
    simp only [List.all_eq_true]
    intro x hx
    obtain ⟨c, _, rfl⟩ := List.mem_map.mp hx
    exact isAllowedChar_replChar c
  have hhead : ((sanitizeBranch s).data.head? == some '-') = false :=
    head_stripTrail_stripLead _
  have hlast : ((sanitizeBranch s).data.getLast? == some '-') = false :=
    last_stripTrail _
  refine ⟨?_, hall, hhead, hlast⟩
  show String.mk (stripTrail (stripLead ((sanitizeBranch s).data.map replChar))) = sanitizeBranch s
  rw [map_replChar_id hall]
  show String.mk (stripTrail ((sanitizeBranch s).data.dropWhile isDashChar)) = sanitizeBranch s
  rw [dropWhile_dash_id hhead]
  show String.mk ((((sanitizeBranch s).data).reverse.dropWhile isDashChar).reverse) = sanitizeBranch s
  rw [dropWhile_dash_id (by rw [List.head?_reverse]; exact hlast), List.reverse_reverse]

/-! ### Concrete inputs and the remaining claims -/


def mainDefaults : List String := ["main", "master"]
def cfgTargeted : Config := ⟨mainDefaults, true, none, defaultPatterns⟩
def cfgLegacyAll : Config := ⟨mainDefaults, true, some 0, defaultPatterns⟩

def repoW1 : RepoState :=
  ⟨"main", "abc123", some ⟨"v1.0.0", ⟨1, 0, 0⟩, "t0"⟩, [⟨"h1", "[v:9.9.9] set"⟩]⟩

/-- C1: for every invocation on a trunk branch with commit bumps
enabled, if the aggregated tally carries an explicit version, the
resulting version string is exactly that explicit version — regardless
of any major/minor/patch bump counts accumulated from newer commits and
regardless of the baseline tag or commit count (src/index.ts:583-584
and 645-647 both short-circuit on `commitBumps.explicitVersion`). -/
theorem calcVersion_explicit_wins (repo : RepoState) (cfg : Config) (v : String)
    (hE : cfg.enableCommitBumps = true)
    (hM : cfg.mainBranches.contains repo.currentBranch = true)
    (hx : (calcVersion repo cfg).commitBumps.explicitVersion = some v) :
    (calcVersion repo cfg).version = v := by
  unfold calcVersion at hx ⊢
  simp only [hE, hM, Bool.and_self, if_pos] at hx ⊢
  cases hT : repo.lastTag with
  | some t => simp [versionWithTag, hx, hM]
  | none => simp [versionNoTag, hx, hM]

/-- Witness for C1 at a concrete input: legacy full scan of a single
commit `[v:9.9.9] set` above baseline `v1.0.0` yields `9.9.9`. -/
theorem calcVersion_explicit_wins_witness :
    (calcVersion repoW1 cfgLegacyAll).version = "9.9.9" :=
  calcVersion_explicit_wins repoW1 cfgLegacyAll "9.9.9" rfl (by decide) (by decide)

/-! C3: the no-baseline composition.

The composer code of the untagged trunk path (src/index.ts:649-655)
copies all three tally counters verbatim — unlike the tagged path it
resets nothing.  That difference is unobservable in the running
program: the parse stage (`parseLog`) delivers at most one commit to
the aggregator, so at most one tally counter is ever nonzero, and on
every reachable execution the untagged composition coincides with the
claimed formula and with the tagged composition over a `0.0.0`
baseline. -/

def repoC4 : RepoState := ⟨"main", "abc123", some ⟨"v1.0.0", ⟨1, 0, 0⟩, "t0"⟩,
  [⟨"h3", "Commit 2"⟩, ⟨"h2", "Commit 1"⟩, ⟨"h1", "[v:2.0.0] jump"⟩]⟩

/-- C4: evaluation of the code at the claimed scenario (baseline
`v1.0.0` on trunk, commit `[v:2.0.0] jump` followed by two newer plain
commits).  The claim (and the repository's own test
"should use explicit version from commit when tag exists before it")
expects `2.0.2`; the code produces `1.0.3` in the default targeted mode
(the broken `--grep -E` pre-filter matches none of the commits, so the
tally is empty and the commit-count fallback fires over the full range
count) and `1.0.1` in the legacy exhaustive mode (the broken
`'\x00\x00'` parse keeps only the newest plain commit, the tally stays
empty, and the fallback uses `commits.length = 1` as the count). -/
theorem explicit_scenario_eval :
    (calcVersion repoC4 cfgTargeted).version = "1.0.3" ∧
    (calcVersion repoC4 cfgLegacyAll).version = "1.0.1" ∧
    (("1.0.3" : String) == "2.0.2") = false ∧
    (("1.0.1" : String) == "2.0.2") = false := by decide

def repoC5 : RepoState := ⟨"main", "abc123", some ⟨"v1.2.0", ⟨1, 2, 0⟩, "t0"⟩,
  [⟨"h3", "[patch] c"⟩, ⟨"h2", "[minor] b"⟩, ⟨"h1", "[minor] a"⟩]⟩

def repoC6 : RepoState := ⟨"main", "abc123", some ⟨"v1.2.0", ⟨1, 2, 0⟩, "t0"⟩,
  [⟨"h1", "[major] Breaking change"⟩]⟩

/-- C6: evaluation showing the targeted strategy does not reproduce
the exhaustive strategy's tally or version even under the default
configuration: for baseline `v1.2.0` and a single `[major] Breaking
change` commit, the exhaustive scan tallies one major bump and yields
`2.0.0` (what the repository's test "should handle [major] bump"
expects), while the targeted scan's pre-filter — whose `-E` pattern
matches only the literal text `[major]|[minor]|[patch]|[version:|[v:` —
drops the commit, leaving a zero tally and the fallback `1.2.1`. -/
theorem targeted_vs_exhaustive_eval :
    (calcVersion repoC6 cfgLegacyAll).commitBumps.major = 1 ∧
    (calcVersion repoC6 cfgLegacyAll).version = "2.0.0" ∧
    (calcVersion repoC6 cfgTargeted).commitBumps = zeroTally ∧
    (calcVersion repoC6 cfgTargeted).version = "1.2.1" ∧
    ((calcVersion repoC6 cfgTargeted).version == (calcVersion repoC6 cfgLegacyAll).version) = false := by
  decide

/-- C8 amended: `suggestVersionBump` given a kind that node-semver's
`inc` does not recognize (anything outside major, minor, patch,
premajor, preminor, prepatch, prerelease, pre — and also `release`,
which yields `null` for a plain base) does not surface an error:
`inc` returns `null` and the function returns the fallback version
string `'1.0.0'` (src/index.ts:698).  Recognized pre-kinds likewise
return a version string (a prerelease), not an error. -/
theorem suggest_invalid_kind_amended (bumpType : String) (repo : RepoState) (cfg : Config)
    (hk : (["major", "minor", "patch", "premajor", "preminor", "prepatch",
            "prerelease", "pre"] : List String).contains bumpType = false) :
    suggestVersionBump bumpType repo cfg = "1.0.0" := by
  simp only [List.contains_cons, List.contains_nil, Bool.or_eq_false_iff] at hk
  obtain ⟨h1, h2, h3, h4, h5, h6, h7, h8, -⟩ := hk
  unfold suggestVersionBump semverInc
  simp [h1, h2, h3, h4, h5, h6, h7, h8]

/-- C8 counterexample: invoking `suggestVersionBump` with the kind
`"bogus"` returns the version string `1.0.0`, and with the kind
`"premajor"` (also outside major|minor|patch) the prerelease version
string `2.0.0-0` — in both cases a version string is returned and no
error is surfaced to the caller. -/
theorem suggest_invalid_kind_cex :
    suggestVersionBump "bogus" repoC4 cfgTargeted = "1.0.0" ∧
    suggestVersionBump "premajor" repoC4 cfgTargeted = "2.0.0-0" := by decide

/-- Witness for C8 amended at the concrete unrecognized kind
`"invalid"`. -/
theorem suggest_invalid_kind_amended_witness :
    suggestVersionBump "invalid" repoC5 cfgLegacyAll = "1.0.0" :=
  suggest_invalid_kind_amended "invalid" repoC5 cfgLegacyAll (by decide)

/-- The repository with every commit message rewritten by `f` (hashes,
branch, tags untouched). -/
def mapMessages (f : String → String) (repo : RepoState) : RepoState :=
  { repo with commitsInRange := repo.commitsInRange.map fun c => ⟨c.hash, f c.message⟩ }

/-- C10: whenever the current branch is not a trunk branch or commit
bumps are disabled, the returned `commitBumps` is exactly
`{ major := 0, minor := 0, patch := 0, explicitVersion := none }`, and
commit messages are never consulted: rewriting every message in the
range (even to ones full of bump or explicit-version markers) leaves
the entire result unchanged. -/
theorem calcVersion_no_bump_analysis (repo : RepoState) (cfg : Config)
    (h : (cfg.enableCommitBumps && cfg.mainBranches.contains repo.currentBranch) = false) :
    (calcVersion repo cfg).commitBumps = zeroTally ∧
    ∀ f : String → String, calcVersion (mapMessages f repo) cfg = calcVersion repo cfg := by
  constructor
  · simp only [calcVersion]
    rw [h]
    simp
  · intro f
    simp only [calcVersion, mapMessages, scannedCommits, resolveCount]
    rw [h]
    simp [List.length_map]

def repoW10 : RepoState :=
  ⟨"dev", "abc123", some ⟨"v1.0.0", ⟨1, 0, 0⟩, "t0"⟩, [⟨"h1", "[major] x"⟩]⟩

/-- Witness for C10 at a concrete input: a `feature` checkout whose
only commit carries a `[major]` marker still reports a zero tally. -/
theorem calcVersion_no_bump_analysis_witness :
    (calcVersion repoW10 cfgTargeted).commitBumps = zeroTally :=
  (calcVersion_no_bump_analysis repoW10 cfgTargeted (by decide)).1

lemma scanTargetedT_fst {σ : Type} (repo : RepoState) (cb : String → σ → σ) (s : σ) :
    (scanTargetedT repo cb s).1 =
      parseLog (repo.commitsInRange.filter fun c => grepMatch c.message) := by
  simp only [scanTargetedT]
  split <;> rfl

lemma calcVersionT_fst {σ : Type} (repo : RepoState) (cfg : Config)
    (cb : String → σ → σ) (s : σ) :
    (calcVersionT repo cfg cb s).1 = calcVersion repo cfg := by
  cases h : cfg.enableCommitBumps && cfg.mainBranches.contains repo.currentBranch with
  | true =>
    cases hm : cfg.maxCommitScan with
    | none =>
      simp only [calcVersionT, calcVersion, scannedCommits, hm, h]
      simp [scanTargetedT_fst]
    | some n =>
      simp only [calcVersionT, calcVersion, scannedCommits, hm, h]
      simp
  | false =>
    simp only [calcVersionT, calcVersion, scannedCommits, h]
    simp

/-- C9: the progress callback is pure observability — for a fixed
repository state and configuration, any two runs of the
callback-threaded `calculateVersion` (with arbitrary callbacks over
arbitrary caller states, including the no-op one modelling an absent
`onProgress`) produce the same `VersionInfo`. -/
theorem progress_pure_observability (repo : RepoState) (cfg : Config)
    {σ₁ σ₂ : Type} (cb₁ : String → σ₁ → σ₁) (s₁ : σ₁) (cb₂ : String → σ₂ → σ₂) (s₂ : σ₂) :
    (calcVersionT repo cfg cb₁ s₁).1 = (calcVersionT repo cfg cb₂ s₂).1 := by
  rw [calcVersionT_fst, calcVersionT_fst]

end Prospector
